import Mathlib

/-!
# Verification of `scrape.py` (tunearch-scrape)

A shallow embedding of the tunearch scraping script and proofs about its
claims: the emptiness filter, record formatting, page-request construction,
the two pagination drivers, HTTP error handling, and the theme-code
enumeration.

External effects are modelled explicitly:
* the network is a function `net : String → HttpResponse` from URL to the
  response that a GET of that URL yields (status code, the text contents of
  the `<pre>` elements of the HTML body, and the JSON result-set values);
* the `unidecode` transliteration library is an opaque parameter
  `unidecode : String → String`;
* the filesystem is an existence predicate `fs0 : String → Bool` plus an
  explicit list of write events `(filename, bytes written)`;
* Python exceptions are `Except` values; `requests.raise_for_status`
  raises exactly for status codes in [400, 600).
-/

/-- Python's substring test `needle in hay`, on character lists. -/
def listIn (needle : List Char) : List Char → Bool
  | [] => needle.isPrefixOf []
  | c :: rest => needle.isPrefixOf (c :: rest) || listIn needle rest

/-- Python's substring test `needle in hay` on strings. -/
def pyIn (needle hay : String) : Bool :=
  listIn needle.data hay.data

/-- `scrape.py` line 79-82: `transcription_is_empty(abc)` returns
`("No Score" in abc) or ("REPLACE THIS LINE WITH THE ABC CODE OF THIS TUNE") in abc`. -/
def transcription_is_empty (abc : String) : Bool :=
  pyIn "No Score" abc || pyIn "REPLACE THIS LINE WITH THE ABC CODE OF THIS TUNE" abc

/-- A raw catalog record: one value of the JSON result-set mapping.  Only the
fields the script reads are modelled. -/
structure RawTune where
  fulltext : String
  fullurl : String
deriving DecidableEq, Repr

/-- The record the script persists (`name`/`url`/`abc` keys of the dict built
by `format_tune_entry`). -/
structure OutputRecord where
  name : String
  url : String
  abc : String
deriving DecidableEq, Repr

/-- The observable part of an HTTP response, as the script consumes it:
the status code, the text of the `<pre>` elements of the HTML body
(`tree.xpath('//pre/text()')` in document order), and the values of the JSON
result-set mapping (`response.json()[...]['results'].values()` in enumeration
order). -/
structure HttpResponse where
  status_code : Nat
  preBlocks : List String
  results : List RawTune
deriving Repr

/-- The one kind of exception the script can raise at a request site. -/
inductive HttpError where
  | statusError (code : Nat)
deriving DecidableEq, Repr

/-- `requests.Response.raise_for_status`: raises an `HTTPError` exactly when
the status code is a 4xx client error or 5xx server error. -/
def raise_for_status (code : Nat) : Except HttpError Unit :=
  if 400 ≤ code ∧ code < 600 then .error (.statusError code) else .ok ()

/-- The status guard appearing verbatim at all three request sites:
`if response.status_code is not 200: response.raise_for_status()`. -/
def checkStatus (code : Nat) : Except HttpError Unit :=
  if code ≠ 200 then raise_for_status code else .ok ()

/-- `scrape.py` lines 16-28: GET the url, run the status guard, take the text
of the `pre` elements; return the transliteration of the first if any exists,
else the sentinel `"No Score"`. -/
def scrape_abc_notation (unidecode : String → String) (net : String → HttpResponse)
    (url : String) : Except HttpError String := do
  let response := net url
  checkStatus response.status_code
  let content := response.preBlocks
  match content with
  | c :: _ => pure (unidecode c)
  | [] => pure "No Score"

/-- `scrape.py` lines 30-38: fetch the transcription for the tune's
`fullurl` and assemble the output record. -/
def format_tune_entry (unidecode : String → String) (net : String → HttpResponse)
    (tune : RawTune) : Except HttpError OutputRecord := do
  let abc_transcription ← scrape_abc_notation unidecode net tune.fullurl
  pure { name := tune.fulltext, url := tune.fullurl, abc := abc_transcription }

/-! ## Page request construction -/

/-- `urllib.parse.quote_plus` on one character: unreserved characters pass
through, space becomes `+`, anything else is percent-encoded with uppercase
hex digits. -/
def quote_plus_char (c : Char) : String :=
  if c = ' ' then "+"
  else if c.isAlphanum || c = '_' || c = '.' || c = '-' || c = '~' then String.singleton c
  else "%" ++ String.singleton (Nat.digitChar (c.toNat / 16)).toUpper ++
       String.singleton (Nat.digitChar (c.toNat % 16)).toUpper

/-- `urllib.parse.quote_plus` on a string. -/
def quote_plus (s : String) : String :=
  String.join (s.data.map quote_plus_char)

/-- `urllib.parse.urlencode(args, doseq=True)` for an association list whose
values are single strings (every list in `scrape.py`'s `args` dict has one
element). -/
def urlencode (args : List (String × String)) : String :=
  String.intercalate "&" (args.map fun kv => quote_plus kv.1 ++ "=" ++ quote_plus kv.2)

/-- `scrape.py` lines 56-67: the `args` dict of `request_tunes`, in insertion
order. -/
def request_tunes_args (page num_tunes : Nat) : List (String × String) :=
  [("order_num", "ASC"),
   ("title", "Special:Ask"),
   ("sort[0]", "Theme_code_index"),
   ("order[0]", "ASC"),
   ("p[format]", "json"),
   ("q", "[[Category:Tune]]"),
   ("p[offset]", toString (page * num_tunes)),
   ("p[searchlabel]", "JSON"),
   ("eq", "yes"),
   ("p[limit]", toString num_tunes)]

/-- `scrape.py` lines 68-69: the URL `request_tunes` sends its GET to. -/
def request_tunes_url (page num_tunes : Nat) : String :=
  "http://tunearch.org/w/index.php?" ++ urlencode (request_tunes_args page num_tunes)

/-- `scrape.py` lines 42-45: the URL `request_tunes_by_theme_code` sends its
GET to (`url_template.format(code, page * num_tunes, num_tunes)`). -/
def request_tunes_by_theme_code_url (code : String) (page num_tunes : Nat) : String :=
  "http://tunearch.org/w/api.php?action=ask" ++
  "&query=[[Category:Tune]]|[[Theme code index::~" ++ code ++ "*]]" ++
  "|offset=" ++ toString (page * num_tunes) ++ "|limit=" ++ toString num_tunes ++
  "&format=json"

/-- `scrape.py` lines 40-52: `request_tunes_by_theme_code`. -/
def request_tunes_by_theme_code (unidecode : String → String) (net : String → HttpResponse)
    (code : String) (page num_tunes : Nat) : Except HttpError (List OutputRecord) := do
  let target_url := request_tunes_by_theme_code_url code page num_tunes
  let response := net target_url
  checkStatus response.status_code
  let tunes_dict := response.results
  tunes_dict.mapM (format_tune_entry unidecode net)

/-- `scrape.py` lines 54-77: `request_tunes`. -/
def request_tunes (unidecode : String → String) (net : String → HttpResponse)
    (page num_tunes : Nat) : Except HttpError (List OutputRecord) := do
  let target_url := request_tunes_url page num_tunes
  let response := net target_url
  checkStatus response.status_code
  let tunes_dict := response.results
  tunes_dict.mapM (format_tune_entry unidecode net)

/-! ## JSON serialization (`json.dumps` with default options) -/

/-- Four lowercase hex digits, as in Python's `\uXXXX` escapes. -/
def hex4 (n : Nat) : String :=
  String.mk [Nat.digitChar (n / 4096 % 16), Nat.digitChar (n / 256 % 16),
             Nat.digitChar (n / 16 % 16), Nat.digitChar (n % 16)]

/-- `json.dumps` escaping of one character (default `ensure_ascii=True`):
backslash, double quote, the short control escapes, and `\uXXXX` (with a
surrogate pair above the BMP) for other characters outside `0x20`-`0x7e`. -/
def jsonEscapeChar (c : Char) : String :=
  if c = '"' then "\\\""
  else if c = '\\' then "\\\\"
  else if c = '\n' then "\\n"
  else if c = '\t' then "\\t"
  else if c = '\r' then "\\r"
  else if c.toNat = 8 then "\\b"
  else if c.toNat = 12 then "\\f"
  else if c.toNat < 32 ∨ 127 ≤ c.toNat then
    if c.toNat < 65536 then "\\u" ++ hex4 c.toNat
    else
      "\\u" ++ hex4 (55296 + (c.toNat - 65536) / 1024) ++
      "\\u" ++ hex4 (56320 + (c.toNat - 65536) % 1024)
  else String.singleton c

/-- A JSON string literal as `json.dumps` renders it. -/
def jsonString (s : String) : String :=
  "\"" ++ String.join (s.data.map jsonEscapeChar) ++ "\""

/-- `json.dumps` of one output record (keys in dict insertion order,
default separators `", "` and `": "`). -/
def dumpsRecord (r : OutputRecord) : String :=
  "\x7b\"name\": " ++ jsonString r.name ++
  ", \"url\": " ++ jsonString r.url ++
  ", \"abc\": " ++ jsonString r.abc ++ "\x7d"

/-- `json.dumps(all_tunes)`: the exact bytes written at each page flush. -/
def dumps (tunes : List OutputRecord) : String :=
  "[" ++ String.intercalate ", " (tunes.map dumpsRecord) ++ "]"

/-! ## Pagination drivers -/

/-- Page size used by both drivers (`tunes_per_page = 10`). -/
def tunes_per_page : Nat := 10

/-- The list-comprehension filter of both drivers:
`[tune for tune in page_of_tunes if not transcription_is_empty(tune['abc'])]`. -/
def keepTune (t : OutputRecord) : Bool :=
  !(transcription_is_empty t.abc)

/-- Outcome of a run of the global driver: the page indices requested in
order, the successive file contents written to `tunes.json`, and (on normal
termination) the final accumulator. -/
inductive GlobalResult where
  | ok (reqs : List Nat) (writes : List String) (all_tunes : List OutputRecord)
  | err (e : HttpError) (reqs : List Nat) (writes : List String)
deriving DecidableEq, Repr

/-- `scrape.py` lines 112-132, the `while True` loop of `request_all_tunes`,
with the page fetch (`request_tunes(page, tunes_per_page)`) abstracted as
`fetch` and an explicit fuel bound (`none` = fuel exhausted before the loop
ended).  Each iteration requests a page, filters it, extends the accumulator,
rewrites the output file with the serialized accumulator, and stops iff the
raw page was shorter than `tunes_per_page`. -/
def request_all_tunes_loop (fetch : Nat → Except HttpError (List OutputRecord)) :
    Nat → Nat → List OutputRecord → List Nat → List String → Option GlobalResult
  | 0, _, _, _, _ => none
  | fuel + 1, page, all_tunes, reqs, writes =>
    match fetch page with
    | .error e => some (.err e (reqs ++ [page]) writes)
    | .ok page_of_tunes =>
      let filtered_page := page_of_tunes.filter keepTune
      let all_tunes' := all_tunes ++ filtered_page
      let writes' := writes ++ [dumps all_tunes']
      if page_of_tunes.length < tunes_per_page then
        some (.ok (reqs ++ [page]) writes' all_tunes')
      else
        request_all_tunes_loop fetch fuel (page + 1) all_tunes' (reqs ++ [page]) writes'

/-- `request_all_tunes`, composed with the real page requester. -/
def request_all_tunes (unidecode : String → String) (net : String → HttpResponse)
    (fuel : Nat) : Option GlobalResult :=
  request_all_tunes_loop (fun page => request_tunes unidecode net page tunes_per_page)
    fuel 0 [] [] []

/-! ## Theme-code driver -/

/-- `range(1, 8)`: the digits a theme code is built from. -/
def theme_digit_range : List Nat := List.range' 1 7

/-- `itertools.product(range(1, 8), repeat=4)` in generation (lexicographic,
last position fastest) order. -/
def theme_code_product : List (List Nat) :=
  theme_digit_range.flatMap fun a =>
    theme_digit_range.flatMap fun b =>
      theme_digit_range.flatMap fun c =>
        theme_digit_range.map fun d => [a, b, c, d]

/-- `''.join([str(digit) for digit in combo])`. -/
def theme_code_of_combo (combo : List Nat) : String :=
  String.join (combo.map toString)

/-- `TUNE_FILE_FORMAT.format(code)` with `TUNE_FILE_FORMAT = "tunes-{}.json"`. -/
def TUNE_FILE_FORMAT (code : String) : String :=
  "tunes-" ++ code ++ ".json"

/-- The 2401 theme codes, in the order the driver visits them. -/
def allCodes : List String :=
  theme_code_product.map theme_code_of_combo

/-- Outcome of a run of the theme-code driver: the `(code, page)` requests
issued in order and the `(filename, bytes)` write events in order. -/
inductive ByCodeResult where
  | ok (reqs : List (String × Nat)) (events : List (String × String))
  | err (e : HttpError) (reqs : List (String × Nat)) (events : List (String × String))
deriving DecidableEq, Repr

/-- `scrape.py` lines 95-110, the `for page in range(10)` inner loop of
`request_all_tunes_by_code` for one theme code, with the page fetch
(`request_tunes_by_theme_code(code, page, tunes_per_page)`) abstracted as
`fetch`.  `remaining` counts the iterations `range(10)` still allows.  An
`HttpError` aborts the whole run, carrying the requests and writes so far. -/
def code_pages_loop (fetch : String → Nat → Except HttpError (List OutputRecord))
    (code tune_file : String) :
    Nat → Nat → List OutputRecord → List (String × Nat) → List (String × String) →
    Except (HttpError × List (String × Nat) × List (String × String))
           (List (String × Nat) × List (String × String))
  | 0, _, _, reqs, events => .ok (reqs, events)
  | remaining + 1, page, all_tunes, reqs, events =>
    match fetch code page with
    | .error e => .error (e, reqs ++ [(code, page)], events)
    | .ok page_of_tunes =>
      let filtered_page := page_of_tunes.filter keepTune
      let all_tunes' := all_tunes ++ filtered_page
      let events' := events ++ [(tune_file, dumps all_tunes')]
      if page_of_tunes.length < tunes_per_page then .ok (reqs ++ [(code, page)], events')
      else code_pages_loop fetch code tune_file remaining (page + 1) all_tunes'
             (reqs ++ [(code, page)]) events'

/-- `scrape.py` lines 84-110, the outer loop of `request_all_tunes_by_code`
over the theme-code product.  `fs0` is the filesystem at the start of the run
(`os.path.isfile`); a file also counts as present once this run has written
it. -/
def by_code_go (fetch : String → Nat → Except HttpError (List OutputRecord))
    (fs0 : String → Bool) :
    List (List Nat) → List (String × Nat) → List (String × String) → ByCodeResult
  | [], reqs, events => .ok reqs events
  | combo :: rest, reqs, events =>
    let code := theme_code_of_combo combo
    let tune_file := TUNE_FILE_FORMAT code
    if fs0 tune_file || events.any (fun ev => ev.1 == tune_file) then
      by_code_go fetch fs0 rest reqs events
    else
      match code_pages_loop fetch code tune_file 10 0 [] reqs events with
      | .error (e, reqs', events') => .err e reqs' events'
      | .ok (reqs', events') => by_code_go fetch fs0 rest reqs' events'

/-- `request_all_tunes_by_code` with the page fetch abstracted. -/
def request_all_tunes_by_code (fetch : String → Nat → Except HttpError (List OutputRecord))
    (fs0 : String → Bool) : ByCodeResult :=
  by_code_go fetch fs0 theme_code_product [] []

/-- `request_all_tunes_by_code`, composed with the real page requester. -/
def request_all_tunes_by_code_net (unidecode : String → String)
    (net : String → HttpResponse) (fs0 : String → Bool) : ByCodeResult :=
  request_all_tunes_by_code
    (fun code page => request_tunes_by_theme_code unidecode net code page tunes_per_page) fs0

/-! ## The substring test -/

theorem listIn_iff (needle hay : List Char) : listIn needle hay = true ↔ needle <:+: hay := by
  induction hay with
  | nil => simp [listIn, List.isPrefixOf_iff_prefix]
  | cons c rest ih =>
    simp [listIn, Bool.or_eq_true, List.isPrefixOf_iff_prefix, ih, List.infix_cons_iff]

theorem pyIn_iff (needle hay : String) : pyIn needle hay = true ↔ needle.data <:+: hay.data :=
  listIn_iff needle.data hay.data

/-! ## C1: the emptiness filter -/

/-- C1 counterexample: the claim says `transcription_is_empty` holds only for
strings *equal* to `"No Score"` (or containing the placeholder); but the code
tests substring containment, so `"ANo Score"` — not equal to the sentinel and
free of the placeholder — is classified empty. -/
theorem transcription_is_empty_equality_cex :
    transcription_is_empty "ANo Score" = true ∧ "ANo Score" ≠ "No Score" ∧
      pyIn "REPLACE THIS LINE WITH THE ABC CODE OF THIS TUNE" "ANo Score" = false :=
  ⟨by decide, by decide, by decide⟩

/-- C1 (amended): `transcription_is_empty` returns true iff the transcription
*contains* `"No Score"` as a substring or contains the placeholder substring
`"REPLACE THIS LINE WITH THE ABC CODE OF THIS TUNE"`; for every string
containing neither, it returns false. -/
theorem transcription_is_empty_iff_substring (abc : String) :
    transcription_is_empty abc = true ↔
      ("No Score".data <:+: abc.data ∨
       "REPLACE THIS LINE WITH THE ABC CODE OF THIS TUNE".data <:+: abc.data) := by
  simp [transcription_is_empty, Bool.or_eq_true, pyIn_iff]

/-! ## C2: the record formatter -/

/-- C2: whenever the transcription fetch on the record's `fullurl` succeeds
with transcription `t`, `format_tune_entry` returns the record
`{name := fulltext, url := fullurl, abc := t}`. -/
theorem format_tune_entry_output_shape (unidecode : String → String)
    (net : String → HttpResponse) (tune : RawTune) (t : String)
    (h : scrape_abc_notation unidecode net tune.fullurl = .ok t) :
    format_tune_entry unidecode net tune = .ok ⟨tune.fulltext, tune.fullurl, t⟩ := by
  simp [format_tune_entry, h]

/-- C2 witness: a concrete record and network on which the fetch succeeds and
the formatter produces exactly the `{fulltext, fullurl, transcription}`
record. -/
theorem format_tune_entry_output_shape_witness :
    format_tune_entry id (fun _ => ⟨200, ["X:1 abc"], []⟩) ⟨"The Tune", "http://t"⟩ =
      .ok ⟨"The Tune", "http://t", "X:1 abc"⟩ :=
  format_tune_entry_output_shape id (fun _ => ⟨200, ["X:1 abc"], []⟩)
    ⟨"The Tune", "http://t"⟩ "X:1 abc" rfl

/-! ## C7: the transcription fetcher -/

/-- C7: on a 200 response, `scrape_abc_notation` returns the sentinel
`"No Score"` when the body has no `pre` block, and the transliteration of the
first `pre` block's text otherwise. -/
theorem scrape_abc_notation_spec (unidecode : String → String)
    (net : String → HttpResponse) (url : String)
    (h200 : (net url).status_code = 200) :
    ((net url).preBlocks = [] → scrape_abc_notation unidecode net url = .ok "No Score") ∧
    (∀ c rest, (net url).preBlocks = c :: rest →
      scrape_abc_notation unidecode net url = .ok (unidecode c)) := by
  constructor
  · intro h
    simp [ scrape_abc_notation, checkStatus, h200, h]
  · intro c rest h
    simp [ scrape_abc_notation, checkStatus, h200, h]

/-- C7 witness: a body with two `pre` blocks yields the transliteration of
the first; a body with none yields `"No Score"`. -/
theorem scrape_abc_notation_spec_witness :
    scrape_abc_notation id (fun _ => ⟨200, ["X:1", "X:2"], []⟩) "u" = .ok "X:1" ∧
    scrape_abc_notation id (fun _ => ⟨200, [], []⟩) "v" = .ok "No Score" :=
  ⟨( scrape_abc_notation_spec id (fun _ => ⟨200, ["X:1", "X:2"], []⟩) "u" rfl).2
      "X:1" ["X:2"] rfl,
   ( scrape_abc_notation_spec id (fun _ => ⟨200, [], []⟩) "v" rfl).1 rfl⟩

/-! ## C9: HTTP status error handling -/

/-- C9 counterexample: the claim says *any* non-200 status raises an HTTP
error at every request site; but the code calls `raise_for_status`, which
raises only for 4xx/5xx, so a 204 response is not raised anywhere — all three
request sites proceed normally. -/
theorem non_200_not_raised_cex :
    scrape_abc_notation id (fun _ => ⟨204, ["X:1"], []⟩) "u" = .ok "X:1" ∧
    request_tunes id (fun _ => ⟨204, [], []⟩) 0 10 = .ok [] ∧
    request_tunes_by_theme_code id (fun _ => ⟨204, [], []⟩) "1111" 0 10 = .ok [] ∧
    (204 : Nat) ≠ 200 :=
  ⟨rfl, rfl, rfl, by decide⟩

/-- C9 (amended): at each of the three request sites a response with a 4xx or
5xx status code causes an `HttpError` to be raised immediately; neither
driver loop catches it, so the error aborts the run, propagated unchanged.
A non-200 status outside 400-599 is not raised: the fetcher proceeds and
still returns a value. -/
theorem http_status_error_handling :
    (∀ (unidecode : String → String) (net : String → HttpResponse) (url : String),
      400 ≤ (net url).status_code → (net url).status_code < 600 →
      scrape_abc_notation unidecode net url =
        .error (.statusError (net url).status_code)) ∧
    (∀ (unidecode : String → String) (net : String → HttpResponse) (page num_tunes : Nat),
      400 ≤ (net (request_tunes_url page num_tunes)).status_code →
      (net (request_tunes_url page num_tunes)).status_code < 600 →
      request_tunes unidecode net page num_tunes =
        .error (.statusError (net (request_tunes_url page num_tunes)).status_code)) ∧
    (∀ (unidecode : String → String) (net : String → HttpResponse) (code : String)
        (page num_tunes : Nat),
      400 ≤ (net (request_tunes_by_theme_code_url code page num_tunes)).status_code →
      (net (request_tunes_by_theme_code_url code page num_tunes)).status_code < 600 →
      request_tunes_by_theme_code unidecode net code page num_tunes =
        .error (.statusError
          (net (request_tunes_by_theme_code_url code page num_tunes)).status_code)) ∧
    (∀ (fetch : Nat → Except HttpError (List OutputRecord)) (fuel page : Nat)
        (acc : List OutputRecord) (reqs : List Nat) (writes : List String) (e : HttpError),
      fetch page = .error e →
      request_all_tunes_loop fetch (fuel + 1) page acc reqs writes =
        some (.err e (reqs ++ [page]) writes)) ∧
    (∀ (fetch : String → Nat → Except HttpError (List OutputRecord)) (code tf : String)
        (remaining page : Nat) (acc : List OutputRecord)
        (reqs : List (String × Nat)) (events : List (String × String)) (e : HttpError),
      fetch code page = .error e →
      code_pages_loop fetch code tf (remaining + 1) page acc reqs events =
        .error (e, reqs ++ [(code, page)], events)) ∧
    (∀ (unidecode : String → String) (net : String → HttpResponse) (url : String),
      (net url).status_code < 400 ∨ 600 ≤ (net url).status_code →
      ∃ v, scrape_abc_notation unidecode net url = .ok v) := by
  refine ⟨?_, ?_, ?_, ?_, ?_, ?_⟩
  · intro unidecode net url h1 h2
    have hne : (net url).status_code ≠ 200 := by omega
    simp [ scrape_abc_notation, checkStatus, raise_for_status, hne, h1, h2,
      Bind.bind, Except.bind]
  · intro unidecode net page num_tunes h1 h2
    have hne : (net (request_tunes_url page num_tunes)).status_code ≠ 200 := by omega
    simp [request_tunes, checkStatus, raise_for_status, hne, h1, h2,
      Bind.bind, Except.bind]
  · intro unidecode net code page num_tunes h1 h2
    have hne : (net (request_tunes_by_theme_code_url code page num_tunes)).status_code ≠ 200 := by
      omega
    simp [request_tunes_by_theme_code, checkStatus, raise_for_status, hne, h1, h2,
      Bind.bind, Except.bind]
  · intro fetch fuel page acc reqs writes e h
    simp [request_all_tunes_loop, h]
  · intro fetch code tf remaining page acc reqs events e h
    simp [code_pages_loop, h]
  · intro unidecode net url h
    have hrs : raise_for_status (net url).status_code = .ok () := by
      rcases h with h | h <;> simp [raise_for_status] <;> omega
    by_cases h200 : (net url).status_code = 200 <;>
      rcases hpre : (net url).preBlocks with _ | ⟨c, rest⟩
    · exact ⟨"No Score", by
        simp [ scrape_abc_notation, checkStatus, h200, hrs, hpre, Bind.bind, Except.bind,
          Pure.pure, Except.pure]⟩
    · exact ⟨unidecode c, by
        simp [ scrape_abc_notation, checkStatus, h200, hrs, hpre, Bind.bind, Except.bind,
          Pure.pure, Except.pure]⟩
    · exact ⟨"No Score", by
        simp [ scrape_abc_notation, checkStatus, h200, hrs, hpre, Bind.bind, Except.bind,
          Pure.pure, Except.pure]⟩
    · exact ⟨unidecode c, by
        simp [ scrape_abc_notation, checkStatus, h200, hrs, hpre, Bind.bind, Except.bind,
          Pure.pure, Except.pure]⟩

/-- C9 witness: a 500 response is raised as an error at the fetch site, a
failing page fetch aborts the global driver with that same error, and a 204
response is not raised. -/
theorem http_status_error_handling_witness :
    scrape_abc_notation id (fun _ => ⟨500, [], []⟩) "u" = .error (.statusError 500) ∧
    request_all_tunes_loop (fun _ => .error (.statusError 500)) 1 0 [] [] [] =
      some (.err (.statusError 500) [0] []) ∧
    (∃ v, scrape_abc_notation id (fun _ => ⟨204, ["X:9"], []⟩) "w" = .ok v) :=
  ⟨http_status_error_handling.1 id (fun _ => ⟨500, [], []⟩) "u" (by decide) (by decide),
   http_status_error_handling.2.2.2.1 (fun _ => .error (.statusError 500)) 0 0 [] [] []
     (.statusError 500) rfl,
   http_status_error_handling.2.2.2.2.2 id (fun _ => ⟨204, ["X:9"], []⟩) "w"
     (Or.inl (by decide))⟩

/-! ## Loop traces

`pagesAcc pages p0 n` is the accumulator after filtering pages
`p0 .. p0+n-1` in page order; `writesAcc`/`eventsAcc` are the successive
file contents the loops flush while consuming those pages. -/

/-- The filtered records of pages `p0, p0+1, ..., p0+n-1`, in page order. -/
def pagesAcc (pages : Nat → List OutputRecord) (p0 : Nat) : Nat → List OutputRecord
  | 0 => []
  | n + 1 => (pages p0).filter keepTune ++ pagesAcc pages (p0 + 1) n

theorem pagesAcc_eq_flatten (pages : Nat → List OutputRecord) (p0 n : Nat) :
    pagesAcc pages p0 n =
      ((List.range n).map fun i => (pages (p0 + i)).filter keepTune).flatten := by
  induction n generalizing p0 with
  | zero => simp [pagesAcc]
  | succ n ih =>
    have hsh : ∀ i : Nat, p0 + 1 + i = p0 + (i + 1) := by omega
    simp [pagesAcc, List.range_succ_eq_map, List.map_map, Function.comp_def,
      Nat.succ_eq_add_one, ih, hsh]

theorem pagesAcc_eq_filter_flatten (pages : Nat → List OutputRecord) (p0 n : Nat) :
    pagesAcc pages p0 n =
      (((List.range n).map fun i => pages (p0 + i)).flatten).filter keepTune := by
  rw [pagesAcc_eq_flatten]
  induction (List.range n) with
  | nil => simp
  | cons i il ih => simp [List.filter_append, ih]

theorem pagesAcc_not_empty (pages : Nat → List OutputRecord) (p0 n : Nat) :
    ∀ r ∈ pagesAcc pages p0 n, transcription_is_empty r.abc = false := by
  intro r hr
  rw [pagesAcc_eq_filter_flatten] at hr
  have := (List.mem_filter.mp hr).2
  simpa [keepTune] using this

theorem pagesAcc_nodup (pages : Nat → List OutputRecord) (p0 n : Nat)
    (hnd : (((List.range n).map fun i => pages (p0 + i)).flatten).Nodup) :
    (pagesAcc pages p0 n).Nodup := by
  rw [pagesAcc_eq_filter_flatten]
  exact hnd.filter keepTune

theorem pagesAcc_length_le (pages : Nat → List OutputRecord) (L : Nat)
    (hlen : ∀ p, (pages p).length ≤ L) (n : Nat) :
    ∀ p0, (pagesAcc pages p0 n).length ≤ n * L := by
  induction n with
  | zero => intro p0; simp [pagesAcc]
  | succ n ih =>
    intro p0
    have h1 : ((pages p0).filter keepTune).length ≤ L :=
      le_trans (List.length_filter_le keepTune (pages p0)) (hlen p0)
    have h2 := ih (p0 + 1)
    simp only [pagesAcc, List.length_append]
    calc ((pages p0).filter keepTune).length + (pagesAcc pages (p0 + 1) n).length
        ≤ L + n * L := by omega
      _ = (n + 1) * L := by ring

/-- The successive file contents the global loop writes while consuming pages
`p0 .. p0+n-1` with accumulator `acc`. -/
def writesAcc (pages : Nat → List OutputRecord) (p0 : Nat) (acc : List OutputRecord) :
    Nat → List String
  | 0 => []
  | n + 1 =>
    dumps (acc ++ (pages p0).filter keepTune) ::
      writesAcc pages (p0 + 1) (acc ++ (pages p0).filter keepTune) n

theorem writesAcc_length (pages : Nat → List OutputRecord) (n : Nat) :
    ∀ (p0 : Nat) (acc : List OutputRecord), (writesAcc pages p0 acc n).length = n := by
  induction n with
  | zero => intro p0 acc; rfl
  | succ n ih => intro p0 acc; simp [writesAcc, ih]

theorem writesAcc_get (pages : Nat → List OutputRecord) (n : Nat) :
    ∀ (p0 : Nat) (acc : List OutputRecord) (i : Nat)
      (h : i < (writesAcc pages p0 acc n).length),
      (writesAcc pages p0 acc n)[i] = dumps (acc ++ pagesAcc pages p0 (i + 1)) := by
  induction n with
  | zero => intro p0 acc i h; simp [writesAcc] at h
  | succ n ih =>
    intro p0 acc i h
    match i with
    | 0 => simp [writesAcc, pagesAcc]
    | i + 1 =>
      have h' : i < (writesAcc pages (p0 + 1) (acc ++ (pages p0).filter keepTune) n).length := by
        simp [writesAcc] at h ⊢
        simpa [writesAcc_length] using h
      have := ih (p0 + 1) (acc ++ (pages p0).filter keepTune) i h'
      simp [writesAcc, this, pagesAcc, List.append_assoc]

/-- The write events the theme-code inner loop appends for file `tf` while
consuming pages `p0 .. p0+n-1` with accumulator `acc`. -/
def eventsAcc (tf : String) (pages : Nat → List OutputRecord) (p0 : Nat)
    (acc : List OutputRecord) : Nat → List (String × String)
  | 0 => []
  | n + 1 =>
    (tf, dumps (acc ++ (pages p0).filter keepTune)) ::
      eventsAcc tf pages (p0 + 1) (acc ++ (pages p0).filter keepTune) n

theorem eventsAcc_length (tf : String) (pages : Nat → List OutputRecord) (n : Nat) :
    ∀ (p0 : Nat) (acc : List OutputRecord), (eventsAcc tf pages p0 acc n).length = n := by
  induction n with
  | zero => intro p0 acc; rfl
  | succ n ih => intro p0 acc; simp [eventsAcc, ih]

theorem eventsAcc_get (tf : String) (pages : Nat → List OutputRecord) (n : Nat) :
    ∀ (p0 : Nat) (acc : List OutputRecord) (i : Nat)
      (h : i < (eventsAcc tf pages p0 acc n).length),
      (eventsAcc tf pages p0 acc n)[i] = (tf, dumps (acc ++ pagesAcc pages p0 (i + 1))) := by
  induction n with
  | zero => intro p0 acc i h; simp [eventsAcc] at h
  | succ n ih =>
    intro p0 acc i h
    match i with
    | 0 => simp [eventsAcc, pagesAcc]
    | i + 1 =>
      have h' : i < (eventsAcc tf pages (p0 + 1) (acc ++ (pages p0).filter keepTune) n).length := by
        simp [eventsAcc] at h ⊢
        simpa [eventsAcc_length] using h
      have := ih (p0 + 1) (acc ++ (pages p0).filter keepTune) i h'
      simp [eventsAcc, this, pagesAcc, List.append_assoc]

theorem eventsAcc_mem_bound (tf : String) (pages : Nat → List OutputRecord) (L : Nat)
    (hlen : ∀ p, (pages p).length ≤ L) (n : Nat) :
    ∀ (p0 : Nat) (acc : List OutputRecord) (ev : String × String),
      ev ∈ eventsAcc tf pages p0 acc n →
      ∃ l : List OutputRecord, ev = (tf, dumps l) ∧ l.length ≤ acc.length + n * L := by
  induction n with
  | zero => intro p0 acc ev h; simp [eventsAcc] at h
  | succ n ih =>
    intro p0 acc ev h
    have hfl : ((pages p0).filter keepTune).length ≤ L :=
      le_trans (List.length_filter_le keepTune (pages p0)) (hlen p0)
    rcases (List.mem_cons.mp h) with rfl | h'
    · exact ⟨acc ++ (pages p0).filter keepTune, rfl, by
        simp only [List.length_append]
        have : (n + 1) * L = n * L + L := by ring
        omega⟩
    · obtain ⟨l, hev, hl⟩ := ih (p0 + 1) (acc ++ (pages p0).filter keepTune) ev h'
      refine ⟨l, hev, ?_⟩
      simp only [List.length_append] at hl
      calc l.length ≤ acc.length + ((pages p0).filter keepTune).length + n * L := by omega
        _ ≤ acc.length + (n + 1) * L := by
            have : (n + 1) * L = n * L + L := by ring
            omega

/-! ## Global loop characterization -/

theorem global_loop_run (pages : Nat → List OutputRecord) (j : Nat) :
    ∀ (p0 fuel : Nat) (acc : List OutputRecord) (reqs : List Nat) (writes : List String),
      (∀ i, i < j → (pages (p0 + i)).length = tunes_per_page) →
      (pages (p0 + j)).length < tunes_per_page →
      j < fuel →
      request_all_tunes_loop (fun p => .ok (pages p)) fuel p0 acc reqs writes =
        some (.ok (reqs ++ List.range' p0 (j + 1))
          (writes ++ writesAcc pages p0 acc (j + 1))
          (acc ++ pagesAcc pages p0 (j + 1))) := by
  induction j with
  | zero =>
    intro p0 fuel acc reqs writes _ hshort hfuel
    obtain ⟨f, rfl⟩ : ∃ f, fuel = f + 1 := ⟨fuel - 1, by omega⟩
    simp only [Nat.add_zero] at hshort
    simp [request_all_tunes_loop, hshort, pagesAcc, writesAcc]
  | succ j ih =>
    intro p0 fuel acc reqs writes hfull hshort hfuel
    obtain ⟨f, rfl⟩ : ∃ f, fuel = f + 1 := ⟨fuel - 1, by omega⟩
    have hp0 : (pages p0).length = tunes_per_page := by
      have := hfull 0 (by omega); simpa using this
    have hnotshort : ¬ ((pages p0).length < tunes_per_page) := by omega
    have hrec := ih (p0 + 1) f (acc ++ (pages p0).filter keepTune) (reqs ++ [p0])
      (writes ++ [dumps (acc ++ (pages p0).filter keepTune)])
      (fun i hi => by
        have := hfull (i + 1) (by omega)
        have hsh : p0 + (i + 1) = p0 + 1 + i := by omega
        rwa [hsh] at this)
      (by
        have hsh : p0 + (j + 1) = p0 + 1 + j := by omega
        rwa [hsh] at hshort)
      (by omega)
    simp only [request_all_tunes_loop, hnotshort, if_false]
    rw [hrec]
    simp [List.range'_succ, writesAcc, pagesAcc, List.append_assoc]

theorem global_loop_ok_inv (pages : Nat → List OutputRecord) (fuel : Nat) :
    ∀ (p0 : Nat) (acc : List OutputRecord) (reqs : List Nat) (writes : List String)
      (reqs' : List Nat) (writes' : List String) (final : List OutputRecord),
      request_all_tunes_loop (fun p => .ok (pages p)) fuel p0 acc reqs writes =
        some (.ok reqs' writes' final) →
      ∃ j, j < fuel ∧
        (∀ i, i < j → tunes_per_page ≤ (pages (p0 + i)).length) ∧
        (pages (p0 + j)).length < tunes_per_page ∧
        reqs' = reqs ++ List.range' p0 (j + 1) ∧
        writes' = writes ++ writesAcc pages p0 acc (j + 1) ∧
        final = acc ++ pagesAcc pages p0 (j + 1) := by
  induction fuel with
  | zero => intro p0 acc reqs writes reqs' writes' final h; simp [request_all_tunes_loop] at h
  | succ fuel ih =>
    intro p0 acc reqs writes reqs' writes' final h
    by_cases hshort : (pages p0).length < tunes_per_page
    · refine ⟨0, by omega, by omega, by simpa using hshort, ?_, ?_, ?_⟩ <;>
      · simp [request_all_tunes_loop, hshort] at h
        simp [writesAcc, pagesAcc, ← h.1, ← h.2.1, ← h.2.2]
    · simp only [request_all_tunes_loop, hshort, if_false] at h
      obtain ⟨j, hj, hfull, hshort', hreqs, hwrites, hfinal⟩ :=
        ih (p0 + 1) (acc ++ (pages p0).filter keepTune) (reqs ++ [p0])
          (writes ++ [dumps (acc ++ (pages p0).filter keepTune)]) reqs' writes' final h
      refine ⟨j + 1, by omega, ?_, ?_, ?_, ?_, ?_⟩
      · intro i hi
        match i with
        | 0 => simpa using (by omega : tunes_per_page ≤ (pages p0).length)
        | i + 1 =>
          have := hfull i (by omega)
          have hsh : p0 + 1 + i = p0 + (i + 1) := by omega
          rwa [hsh] at this
      · have hsh : p0 + 1 + j = p0 + (j + 1) := by omega
        rwa [hsh] at hshort'
      · rw [hreqs]; simp [List.range'_succ]
      · rw [hwrites]; simp [writesAcc]
      · rw [hfinal]; simp [pagesAcc, List.append_assoc]

/-! ## Theme-code inner loop characterization -/

theorem code_loop_ok_inv (fetch : String → Nat → Except HttpError (List OutputRecord))
    (code tf : String) (pages : Nat → List OutputRecord)
    (hfetch : ∀ p, fetch code p = .ok (pages p)) (remaining : Nat) :
    ∀ (page : Nat) (acc : List OutputRecord) (reqs : List (String × Nat))
      (events : List (String × String)) (reqs' : List (String × Nat))
      (events' : List (String × String)),
      code_pages_loop fetch code tf remaining page acc reqs events = .ok (reqs', events') →
      ∃ m, m ≤ remaining ∧ (1 ≤ remaining → 1 ≤ m) ∧
        reqs' = reqs ++ (List.range' page m).map (fun p => (code, p)) ∧
        events' = events ++ eventsAcc tf pages page acc m := by
  induction remaining with
  | zero =>
    intro page acc reqs events reqs' events' h
    simp [code_pages_loop] at h
    exact ⟨0, by omega, by omega, by simp [← h.1], by simp [← h.2, eventsAcc]⟩
  | succ remaining ih =>
    intro page acc reqs events reqs' events' h
    rw [code_pages_loop, hfetch page] at h
    by_cases hshort : (pages page).length < tunes_per_page
    · simp only [hshort, if_true] at h
      cases h
      refine ⟨1, by omega, by omega, ?_, ?_⟩
      · simp [List.range'_succ]
      · simp [eventsAcc]
    · simp only [hshort, if_false] at h
      obtain ⟨m, hm, _, hreqs, hevents⟩ :=
        ih (page + 1) (acc ++ (pages page).filter keepTune)
          (reqs ++ [(code, page)])
          (events ++ [(tf, dumps (acc ++ (pages page).filter keepTune))])
          reqs' events' h
      refine ⟨m + 1, by omega, by omega, ?_, ?_⟩
      · rw [hreqs]; simp [List.range'_succ]
      · rw [hevents]; simp [eventsAcc]

/-! ## C4: the file-on-disk invariant after each page flush -/

/-- C4 counterexample: the claim's "no record appears twice in the file" is
unconditional, but the drivers never deduplicate — when the endpoint returns
the same (non-empty) record twice, the flushed file holds it twice. -/
theorem duplicate_record_cex :
    request_all_tunes_loop (fun _ => .ok [⟨"a", "u", "X"⟩, ⟨"a", "u", "X"⟩]) 1 0 [] [] [] =
      some (.ok [0] [dumps [⟨"a", "u", "X"⟩, ⟨"a", "u", "X"⟩]]
        [⟨"a", "u", "X"⟩, ⟨"a", "u", "X"⟩]) ∧
    ¬ (([⟨"a", "u", "X"⟩, ⟨"a", "u", "X"⟩] : List OutputRecord).Nodup) :=
  ⟨rfl, by decide⟩

/-- C4 (amended): in every successful run of either driver over a page source,
the file content flushed after the `i`-th completed page is exactly the JSON
serialization of the accumulated filtered records of pages `0..i` in page
order; no serialized record satisfies the emptiness filter; and — provided the
raw pages of the run contain no duplicate record — no record appears twice in
any flushed file. -/
theorem page_flush_trace_spec :
    (∀ (pages : Nat → List OutputRecord) (fuel : Nat) (reqs : List Nat)
        (writes : List String) (final : List OutputRecord),
      request_all_tunes_loop (fun p => .ok (pages p)) fuel 0 [] [] [] =
        some (.ok reqs writes final) →
      (∀ i (hi : i < writes.length), writes[i] = dumps (pagesAcc pages 0 (i + 1))) ∧
      final = pagesAcc pages 0 writes.length ∧
      (∀ n, ∀ r ∈ pagesAcc pages 0 n, transcription_is_empty r.abc = false) ∧
      (∀ n, (((List.range n).map fun i => pages i).flatten).Nodup →
        (pagesAcc pages 0 n).Nodup)) ∧
    (∀ (fetch : String → Nat → Except HttpError (List OutputRecord)) (code tf : String)
        (pages : Nat → List OutputRecord) (reqs0 : List (String × Nat))
        (events0 : List (String × String)) (reqs' : List (String × Nat))
        (events' : List (String × String)),
      (∀ p, fetch code p = .ok (pages p)) →
      code_pages_loop fetch code tf 10 0 [] reqs0 events0 = .ok (reqs', events') →
      ∃ m, m ≤ 10 ∧ events' = events0 ++ eventsAcc tf pages 0 [] m ∧
        (∀ i (hi : i < (eventsAcc tf pages 0 [] m).length),
          (eventsAcc tf pages 0 [] m)[i] = (tf, dumps (pagesAcc pages 0 (i + 1))))) := by
  constructor
  · intro pages fuel reqs writes final h
    obtain ⟨j, _, _, _, hreqs, hwrites, hfinal⟩ :=
      global_loop_ok_inv pages fuel 0 [] [] [] reqs writes final h
    subst hwrites hfinal
    simp only [List.nil_append]
    refine ⟨?_, ?_, ?_, ?_⟩
    · intro i hi
      exact writesAcc_get pages (j + 1) 0 [] i hi |>.trans (by simp)
    · simp [writesAcc_length]
    · intro n r hr
      exact pagesAcc_not_empty pages 0 n r hr
    · intro n hnd
      apply pagesAcc_nodup pages 0 n
      simpa using hnd
  · intro fetch code tf pages reqs0 events0 reqs' events' hfetch h
    obtain ⟨m, hm, _, hreqs, hevents⟩ :=
      code_loop_ok_inv fetch code tf pages hfetch 10 0 [] reqs0 events0 reqs' events' h
    refine ⟨m, hm, hevents, ?_⟩
    intro i hi
    exact eventsAcc_get tf pages m 0 [] i hi |>.trans (by simp)

/-- C4 witness: a run whose single page is empty flushes `"[]"`, which is the
serialization of the (empty) accumulated filtered set. -/
theorem page_flush_trace_spec_witness :
    (["[]"] : List String)[0] = dumps (pagesAcc (fun _ => ([] : List OutputRecord)) 0 (0 + 1)) ∧
    ([] : List OutputRecord) = pagesAcc (fun _ => ([] : List OutputRecord)) 0
      (["[]"] : List String).length := by
  have G := page_flush_trace_spec.1 (fun _ => []) 1 [0] ["[]"] [] rfl
  exact ⟨G.1 0 (by decide), G.2.1⟩

/-! ## C5: the theme-code 10-page / 100-record cap -/

/-- C5: the inner loop of the theme-code driver issues at most 10 page
requests, and — when every fetched page respects the requested page size
10 — every flushed file content serializes at most 100 records. -/
theorem theme_code_page_cap (fetch : String → Nat → Except HttpError (List OutputRecord))
    (code tf : String) (pages : Nat → List OutputRecord)
    (reqs' : List (String × Nat)) (events' : List (String × String))
    (hfetch : ∀ p, fetch code p = .ok (pages p))
    (hlen : ∀ p, (pages p).length ≤ tunes_per_page)
    (h : code_pages_loop fetch code tf 10 0 [] [] [] = .ok (reqs', events')) :
    reqs'.length ≤ 10 ∧
    ∀ ev ∈ events', ∃ l : List OutputRecord, ev = (tf, dumps l) ∧ l.length ≤ 100 := by
  obtain ⟨m, hm, _, hreqs, hevents⟩ :=
    code_loop_ok_inv fetch code tf pages hfetch 10 0 [] [] [] reqs' events' h
  subst hreqs hevents
  constructor
  · simp [hm]
  · intro ev hev
    simp only [List.nil_append] at hev
    obtain ⟨l, hevl, hl⟩ := eventsAcc_mem_bound tf pages tunes_per_page hlen m 0 [] ev hev
    refine ⟨l, hevl, ?_⟩
    have : m * tunes_per_page ≤ 10 * tunes_per_page := Nat.mul_le_mul_right _ hm
    simp only [List.length_nil] at hl
    simp [tunes_per_page] at this hl ⊢
    omega

/-- C5 witness: an endpoint that always returns a full page of placeholder
records drives the inner loop through all 10 pages — 10 requests, every flush
the serialization of at most 100 records. -/
theorem theme_code_page_cap_witness :
    ([("1111", 0), ("1111", 1), ("1111", 2), ("1111", 3), ("1111", 4), ("1111", 5),
      ("1111", 6), ("1111", 7), ("1111", 8), ("1111", 9)] :
        List (String × Nat)).length ≤ 10 ∧
    ∀ ev ∈ List.replicate 10 (("tunes-1111.json" : String), ("[]" : String)),
      ∃ l : List OutputRecord, ev = ("tunes-1111.json", dumps l) ∧ l.length ≤ 100 :=
  theme_code_page_cap (fun _ _ => .ok (List.replicate 10 ⟨"n", "u", "No Score"⟩))
    "1111" "tunes-1111.json" (fun _ => List.replicate 10 ⟨"n", "u", "No Score"⟩) _ _
    (fun _ => rfl) (fun _ => by simp [tunes_per_page]) rfl

/-! ## C6: termination of the global pagination driver -/

/-- C6: if the page source yields exactly `tunes_per_page` records on pages
`0..k-1` and fewer on page `k`, the global driver issues exactly the `k+1`
page requests `0, 1, ..., k` in increasing order and then terminates. -/
theorem global_pagination_termination (pages : Nat → List OutputRecord) (k fuel : Nat)
    (hfull : ∀ i, i < k → (pages i).length = tunes_per_page)
    (hshort : (pages k).length < tunes_per_page) (hfuel : k < fuel) :
    ∃ writes final,
      request_all_tunes_loop (fun p => .ok (pages p)) fuel 0 [] [] [] =
        some (.ok (List.range (k + 1)) writes final) := by
  have := global_loop_run pages k 0 fuel [] [] []
    (by simpa using hfull) (by simpa using hshort) hfuel
  refine ⟨writesAcc pages 0 [] (k + 1), pagesAcc pages 0 (k + 1), ?_⟩
  rw [this]
  simp [List.range_eq_range']

/-- C6 witness: two full pages then a short one — exactly the three requests
`0, 1, 2` are issued. -/
theorem global_pagination_termination_witness :
    ∃ writes final,
      request_all_tunes_loop
        (fun p => .ok (if p < 2 then List.replicate 10 ⟨"n", "u", "X"⟩ else [])) 3 0 [] [] [] =
        some (.ok (List.range 3) writes final) :=
  global_pagination_termination
    (fun p => if p < 2 then List.replicate 10 ⟨"n", "u", "X"⟩ else []) 2 3
    (fun i hi => by interval_cases i <;> rfl) (by decide) (by omega)

/-! ## Theme-code outer loop: skipping, purity, and write markers -/

/-- The requests a theme-code run issued, whether it completed or aborted. -/
def byCodeReqs : ByCodeResult → List (String × Nat)
  | .ok reqs _ => reqs
  | .err _ reqs _ => reqs

/-- The requests recorded in a theme-code inner-loop outcome, whether it
completed or aborted. -/
def codeLoopReqs :
    Except (HttpError × List (String × Nat) × List (String × String))
      (List (String × Nat) × List (String × String)) → List (String × Nat)
  | .ok (reqs, _) => reqs
  | .error (_, reqs, _) => reqs

theorem by_code_go_skip_all (fetch : String → Nat → Except HttpError (List OutputRecord))
    (fs0 : String → Bool) :
    ∀ (combos : List (List Nat)) (reqs : List (String × Nat)) (events : List (String × String)),
      (∀ combo ∈ combos, fs0 (TUNE_FILE_FORMAT (theme_code_of_combo combo)) = true) →
      by_code_go fetch fs0 combos reqs events = .ok reqs events := by
  intro combos
  induction combos with
  | nil => intro reqs events _; rfl
  | cons combo rest ih =>
    intro reqs events h
    have hc := h combo (by simp)
    rw [by_code_go]
    simp only [hc, Bool.true_or, if_true]
    exact ih reqs events (fun c hcm => h c (by simp [hcm]))

theorem mem_theme_code_product (l : List Nat) :
    l ∈ theme_code_product ↔ l.length = 4 ∧ ∀ d ∈ l, 1 ≤ d ∧ d ≤ 7 := by
  constructor
  · intro h
    simp only [theme_code_product, theme_digit_range, List.mem_flatMap, List.mem_map,
      List.mem_range'_1] at h
    obtain ⟨a, ha, b, hb, c, hc, d, hd, rfl⟩ := h
    refine ⟨rfl, ?_⟩
    intro x hx
    rcases List.mem_cons.mp hx with rfl | hx
    · omega
    rcases List.mem_cons.mp hx with rfl | hx
    · omega
    rcases List.mem_cons.mp hx with rfl | hx
    · omega
    rcases List.mem_cons.mp hx with rfl | hx
    · omega
    · simp at hx
  · rintro ⟨hlen, hmem⟩
    match l, hlen with
    | [a, b, c, d], _ =>
      simp only [theme_code_product, theme_digit_range, List.mem_flatMap, List.mem_map,
        List.mem_range'_1]
      have ha := hmem a (by simp)
      have hb := hmem b (by simp)
      have hc := hmem c (by simp)
      have hd := hmem d (by simp)
      exact ⟨a, by omega, b, by omega, c, by omega, d, by omega, rfl⟩

theorem code_loop_pure_ok (fetch : String → Nat → Except HttpError (List OutputRecord))
    (code tf : String) (pages : Nat → List OutputRecord)
    (hfetch : ∀ p, fetch code p = .ok (pages p)) (remaining : Nat) :
    ∀ (page : Nat) (acc : List OutputRecord) (reqs : List (String × Nat))
      (events : List (String × String)),
      ∃ reqs' events',
        code_pages_loop fetch code tf remaining page acc reqs events = .ok (reqs', events') := by
  induction remaining with
  | zero => intro page acc reqs events; exact ⟨reqs, events, rfl⟩
  | succ remaining ih =>
    intro page acc reqs events
    rw [code_pages_loop, hfetch page]
    by_cases hshort : (pages page).length < tunes_per_page
    · simp only [hshort, if_true]
      exact ⟨_, _, rfl⟩
    · simp only [hshort, if_false]
      exact ih (page + 1) _ _ _

theorem code_loop_reqs_shape (fetch : String → Nat → Except HttpError (List OutputRecord))
    (code tf : String) (remaining : Nat) :
    ∀ (page : Nat) (acc : List OutputRecord) (reqs : List (String × Nat))
      (events : List (String × String)),
      ∃ ps : List Nat,
        codeLoopReqs (code_pages_loop fetch code tf remaining page acc reqs events) =
          reqs ++ ps.map (fun p => (code, p)) := by
  induction remaining with
  | zero => intro page acc reqs events; exact ⟨[], by simp [code_pages_loop, codeLoopReqs]⟩
  | succ remaining ih =>
    intro page acc reqs events
    rw [code_pages_loop]
    rcases hf : fetch code page with e | page_of_tunes
    · exact ⟨[page], by simp [codeLoopReqs]⟩
    · by_cases hshort : page_of_tunes.length < tunes_per_page
      · simp only [hshort, if_true]
        exact ⟨[page], by simp [codeLoopReqs]⟩
      · simp only [hshort, if_false]
        obtain ⟨ps, hps⟩ := ih (page + 1) (acc ++ page_of_tunes.filter keepTune)
          (reqs ++ [(code, page)]) (events ++ [(tf, dumps (acc ++ page_of_tunes.filter keepTune))])
        exact ⟨page :: ps, by simp [hps]⟩

theorem by_code_go_reqs_tag (fetch : String → Nat → Except HttpError (List OutputRecord))
    (fs0 : String → Bool) (code : String)
    (hfs : fs0 (TUNE_FILE_FORMAT code) = true) :
    ∀ (combos : List (List Nat)) (reqs : List (String × Nat))
      (events : List (String × String)) (p : Nat),
      (code, p) ∈ byCodeReqs (by_code_go fetch fs0 combos reqs events) →
      (code, p) ∈ reqs := by
  intro combos
  induction combos with
  | nil => intro reqs events p h; simpa [by_code_go, byCodeReqs] using h
  | cons combo rest ih =>
    intro reqs events p h
    rw [by_code_go] at h
    by_cases hcheck : (fs0 (TUNE_FILE_FORMAT (theme_code_of_combo combo)) ||
        events.any (fun ev => ev.1 == TUNE_FILE_FORMAT (theme_code_of_combo combo))) = true
    · rw [if_pos hcheck] at h
      exact ih reqs events p h
    · rw [if_neg hcheck] at h
      have hfsc : fs0 (TUNE_FILE_FORMAT (theme_code_of_combo combo)) = false := by
        rcases Bool.eq_false_iff.mpr hcheck |> (Bool.or_eq_false_iff.mp ·) with ⟨h1, _⟩
        exact h1
      have hne : code ≠ theme_code_of_combo combo := by
        intro hEq
        rw [← hEq] at hfsc
        rw [hfs] at hfsc
        exact Bool.noConfusion hfsc
      obtain ⟨ps, hps⟩ := code_loop_reqs_shape fetch (theme_code_of_combo combo)
        (TUNE_FILE_FORMAT (theme_code_of_combo combo)) 10 0 [] reqs events
      rcases hloop : code_pages_loop fetch (theme_code_of_combo combo)
          (TUNE_FILE_FORMAT (theme_code_of_combo combo)) 10 0 [] reqs events with err | okv
      · rcases err with ⟨e, reqs', events'⟩
        rw [hloop] at h hps
        simp only [codeLoopReqs] at hps
        simp only [byCodeReqs] at h
        rw [hps] at h
        rcases List.mem_append.mp h with h | h
        · exact h
        · exfalso
          obtain ⟨q, _, hq⟩ := List.mem_map.mp h
          have h1 : theme_code_of_combo combo = code := congrArg Prod.fst hq
          exact hne h1.symm
      · rcases okv with ⟨reqs', events'⟩
        rw [hloop] at h hps
        simp only [codeLoopReqs] at hps
        simp only [byCodeReqs] at h
        have h' := ih reqs' events' p h
        rw [hps] at h'
        rcases List.mem_append.mp h' with h' | h'
        · exact h'
        · exfalso
          obtain ⟨q, _, hq⟩ := List.mem_map.mp h'
          have h1 : theme_code_of_combo combo = code := congrArg Prod.fst hq
          exact hne h1.symm

theorem by_code_go_pure (fetch : String → Nat → Except HttpError (List OutputRecord))
    (fs0 : String → Bool) (pagesOf : String → Nat → List OutputRecord)
    (hfetch : ∀ c p, fetch c p = .ok (pagesOf c p)) :
    ∀ (combos : List (List Nat)) (reqs : List (String × Nat))
      (events : List (String × String)),
      ∃ reqs' extra, by_code_go fetch fs0 combos reqs events = .ok reqs' (events ++ extra) := by
  intro combos
  induction combos with
  | nil => intro reqs events; exact ⟨reqs, [], by simp [by_code_go]⟩
  | cons combo rest ih =>
    intro reqs events
    rw [by_code_go]
    by_cases hcheck : (fs0 (TUNE_FILE_FORMAT (theme_code_of_combo combo)) ||
        events.any (fun ev => ev.1 == TUNE_FILE_FORMAT (theme_code_of_combo combo))) = true
    · rw [if_pos hcheck]
      exact ih reqs events
    · rw [if_neg hcheck]
      obtain ⟨r1, e1, hloop⟩ := code_loop_pure_ok fetch (theme_code_of_combo combo)
        (TUNE_FILE_FORMAT (theme_code_of_combo combo)) (pagesOf (theme_code_of_combo combo))
        (fun p => hfetch _ p) 10 0 [] reqs events
      obtain ⟨m, _, _, _, he1⟩ := code_loop_ok_inv fetch (theme_code_of_combo combo)
        (TUNE_FILE_FORMAT (theme_code_of_combo combo)) (pagesOf (theme_code_of_combo combo))
        (fun p => hfetch _ p) 10 0 [] reqs events r1 e1 hloop
      obtain ⟨r', ex2, hgo⟩ := ih r1 e1
      simp only [hloop]
      refine ⟨r', eventsAcc (TUNE_FILE_FORMAT (theme_code_of_combo combo))
        (pagesOf (theme_code_of_combo combo)) 0 [] m ++ ex2, ?_⟩
      rw [hgo, he1]
      simp [List.append_assoc]

theorem by_code_written_marker (fetch : String → Nat → Except HttpError (List OutputRecord))
    (fs0 : String → Bool) (pagesOf : String → Nat → List OutputRecord)
    (hfetch : ∀ c p, fetch c p = .ok (pagesOf c p)) :
    ∀ (combos : List (List Nat)) (reqs : List (String × Nat))
      (events : List (String × String)) (combo : List Nat),
      combo ∈ combos →
      fs0 (TUNE_FILE_FORMAT (theme_code_of_combo combo)) = false →
      ∃ reqs' events', by_code_go fetch fs0 combos reqs events = .ok reqs' events' ∧
        ∃ ev ∈ events', ev.1 = TUNE_FILE_FORMAT (theme_code_of_combo combo) := by
  intro combos
  induction combos with
  | nil => intro reqs events combo hmem; exact absurd hmem (List.not_mem_nil combo)
  | cons c rest ih =>
    intro reqs events combo hmem hfsf
    rcases List.mem_cons.mp hmem with rfl | hmem'
    · by_cases hcheck : (fs0 (TUNE_FILE_FORMAT (theme_code_of_combo combo)) ||
          events.any (fun ev => ev.1 == TUNE_FILE_FORMAT (theme_code_of_combo combo))) = true
      · have hany : events.any
            (fun ev => ev.1 == TUNE_FILE_FORMAT (theme_code_of_combo combo)) = true := by
          rcases Bool.or_eq_true_iff.mp hcheck with h | h
          · rw [hfsf] at h; exact Bool.noConfusion h
          · exact h
        obtain ⟨ev, hevmem, hevq⟩ := List.any_eq_true.mp hany
        rw [by_code_go, if_pos hcheck]
        obtain ⟨r', ex, hgo⟩ := by_code_go_pure fetch fs0 pagesOf hfetch rest reqs events
        exact ⟨r', events ++ ex, hgo,
          ⟨ev, List.mem_append_left ex hevmem, beq_iff_eq.mp hevq⟩⟩
      · rw [by_code_go, if_neg hcheck]
        obtain ⟨r1, e1, hloop⟩ := code_loop_pure_ok fetch (theme_code_of_combo combo)
          (TUNE_FILE_FORMAT (theme_code_of_combo combo)) (pagesOf (theme_code_of_combo combo))
          (fun p => hfetch _ p) 10 0 [] reqs events
        obtain ⟨m, _, hm1, _, he1⟩ := code_loop_ok_inv fetch (theme_code_of_combo combo)
          (TUNE_FILE_FORMAT (theme_code_of_combo combo)) (pagesOf (theme_code_of_combo combo))
          (fun p => hfetch _ p) 10 0 [] reqs events r1 e1 hloop
        obtain ⟨m', rfl⟩ : ∃ m', m = m' + 1 := ⟨m - 1, by omega⟩
        obtain ⟨r', ex2, hgo⟩ := by_code_go_pure fetch fs0 pagesOf hfetch rest r1 e1
        simp only [hloop]
        refine ⟨r', e1 ++ ex2, hgo, ?_⟩
        refine ⟨(TUNE_FILE_FORMAT (theme_code_of_combo combo),
          dumps ([] ++ (pagesOf (theme_code_of_combo combo) 0).filter keepTune)), ?_, rfl⟩
        apply List.mem_append_left
        rw [he1]
        apply List.mem_append_right
        simp [eventsAcc]
    · by_cases hcheck : (fs0 (TUNE_FILE_FORMAT (theme_code_of_combo c)) ||
          events.any (fun ev => ev.1 == TUNE_FILE_FORMAT (theme_code_of_combo c))) = true
      · rw [by_code_go, if_pos hcheck]
        exact ih reqs events combo hmem' hfsf
      · rw [by_code_go, if_neg hcheck]
        obtain ⟨r1, e1, hloop⟩ := code_loop_pure_ok fetch (theme_code_of_combo c)
          (TUNE_FILE_FORMAT (theme_code_of_combo c)) (pagesOf (theme_code_of_combo c))
          (fun p => hfetch _ p) 10 0 [] reqs events
        simp only [hloop]
        exact ih r1 e1 combo hmem' hfsf

/-! ## C8: idempotent re-run and the theme-code enumeration -/

set_option maxRecDepth 10000 in
/-- C8: if the output file of every theme code already exists, a run of the
theme-code driver performs zero page requests and zero file writes (so every
file is left byte-identical); the driver enumerates 2401 theme codes — the
full Cartesian product of the digits 1–7 taken 4 at a time. -/
theorem rerun_idempotence (fetch : String → Nat → Except HttpError (List OutputRecord))
    (fs0 : String → Bool)
    (h : ∀ code ∈ allCodes, fs0 (TUNE_FILE_FORMAT code) = true) :
    request_all_tunes_by_code fetch fs0 = .ok [] [] ∧
    allCodes.length = 2401 ∧
    (∀ l, l ∈ theme_code_product ↔ l.length = 4 ∧ ∀ d ∈ l, 1 ≤ d ∧ d ≤ 7) := by
  refine ⟨?_, ?_, mem_theme_code_product⟩
  · apply by_code_go_skip_all
    intro combo hcombo
    exact h (theme_code_of_combo combo) (List.mem_map_of_mem _ hcombo)
  · simp [allCodes, theme_code_product, theme_digit_range, List.range']

/-- C8 witness: with every file present, the run issues no requests and
writes nothing. -/
theorem rerun_idempotence_witness :
    request_all_tunes_by_code (fun _ _ => .ok []) (fun _ => true) = .ok [] [] ∧
    allCodes.length = 2401 :=
  ⟨(rerun_idempotence (fun _ _ => .ok []) (fun _ => true) (fun _ _ => rfl)).1,
   (rerun_idempotence (fun _ _ => .ok []) (fun _ => true) (fun _ _ => rfl)).2.1⟩

/-! ## C10: a processed code always writes its file -/

/-- C10: (i) the theme-code inner loop always flushes at least once before it
can finish, the first flush being the serialization of the filtered first
page; (ii) in a run over a pure page source, every enumerated code whose file
is absent ends up with a write event for its file; (iii) a code whose file is
present contributes no page request, in any run; (iv) a global run whose
first page has no surviving records still writes `tunes.json` once, with the
empty JSON array `"[]"`. -/
theorem first_page_always_written :
    (∀ (fetch : String → Nat → Except HttpError (List OutputRecord)) (code tf : String)
        (pages : Nat → List OutputRecord) (reqs0 : List (String × Nat))
        (events0 : List (String × String)) (reqs' : List (String × Nat))
        (events' : List (String × String)),
      (∀ p, fetch code p = .ok (pages p)) →
      code_pages_loop fetch code tf 10 0 [] reqs0 events0 = .ok (reqs', events') →
      ∃ rest, events' = events0 ++ ((tf, dumps ((pages 0).filter keepTune)) :: rest)) ∧
    (∀ (fetch : String → Nat → Except HttpError (List OutputRecord)) (fs0 : String → Bool)
        (pagesOf : String → Nat → List OutputRecord),
      (∀ c p, fetch c p = .ok (pagesOf c p)) →
      ∀ combo ∈ theme_code_product,
        fs0 (TUNE_FILE_FORMAT (theme_code_of_combo combo)) = false →
        ∃ reqs events, request_all_tunes_by_code fetch fs0 = .ok reqs events ∧
          ∃ ev ∈ events, ev.1 = TUNE_FILE_FORMAT (theme_code_of_combo combo)) ∧
    (∀ (fetch : String → Nat → Except HttpError (List OutputRecord)) (fs0 : String → Bool)
        (code : String) (p : Nat),
      fs0 (TUNE_FILE_FORMAT code) = true →
      (code, p) ∉ byCodeReqs (request_all_tunes_by_code fetch fs0)) ∧
    (∀ (pages : Nat → List OutputRecord) (fuel : Nat),
      (pages 0).filter keepTune = [] → (pages 0).length < tunes_per_page →
      request_all_tunes_loop (fun p => .ok (pages p)) (fuel + 1) 0 [] [] [] =
        some (.ok [0] [dumps []] []) ∧ dumps ([] : List OutputRecord) = "[]") := by
  refine ⟨?_, ?_, ?_, ?_⟩
  · intro fetch code tf pages reqs0 events0 reqs' events' hfetch h
    obtain ⟨m, _, hm1, _, hev⟩ :=
      code_loop_ok_inv fetch code tf pages hfetch 10 0 [] reqs0 events0 reqs' events' h
    obtain ⟨m', rfl⟩ : ∃ m', m = m' + 1 := ⟨m - 1, by omega⟩
    refine ⟨eventsAcc tf pages 1 ((pages 0).filter keepTune) m', ?_⟩
    rw [hev]
    simp [eventsAcc]
  · intro fetch fs0 pagesOf hfetch combo hmem hfsf
    exact by_code_written_marker fetch fs0 pagesOf hfetch theme_code_product [] []
      combo hmem hfsf
  · intro fetch fs0 code p hfs hmem
    have := by_code_go_reqs_tag fetch fs0 code hfs theme_code_product [] [] p hmem
    simp at this
  · intro pages fuel hempty hshort
    constructor
    · simp [request_all_tunes_loop, hshort, hempty]
    · rfl

/-- C10 witness: a global run whose single page is empty writes `"[]"` once;
a code whose file is present is never requested. -/
theorem first_page_always_written_witness :
    (request_all_tunes_loop (fun _ => .ok ([] : List OutputRecord)) 1 0 [] [] [] =
      some (.ok [0] [dumps []] []) ∧ dumps ([] : List OutputRecord) = "[]") ∧
    ("1111", 0) ∉ byCodeReqs (request_all_tunes_by_code (fun _ _ => .ok []) (fun _ => true)) :=
  ⟨first_page_always_written.2.2.2 (fun _ => []) 0 rfl (by decide),
   first_page_always_written.2.2.1 (fun _ _ => .ok []) (fun _ => true) "1111" 0 rfl⟩

/-! ## C3: query construction of the two page requesters -/

theorem infix_append_middle {t X d Y : List Char}
    (htne : t ≠ []) (hdne : d ≠ [])
    (ht : ∀ c ∈ t, c.isDigit = false) (hd : ∀ c ∈ d, c.isDigit = true)
    (h : t <:+: X ++ (d ++ Y)) : t <:+: X ∨ t <:+: Y := by
  obtain ⟨s, e, hse⟩ := h
  have hlen : s.length + t.length + e.length = X.length + (d.length + Y.length) := by
    have := congrArg List.length hse
    simp at this
    omega
  by_cases hA : s.length + t.length ≤ X.length
  · left
    have hpre1 : (s ++ t) <+: X ++ (d ++ Y) := ⟨e, by simpa [List.append_assoc] using hse⟩
    have hpre2 : X <+: X ++ (d ++ Y) := List.prefix_append X _
    have hst : s ++ t <+: X :=
      List.prefix_of_prefix_length_le hpre1 hpre2 (by simpa using hA)
    have htst : t <:+: s ++ t := ⟨s, [], by simp⟩
    exact htst.trans hst.isInfix
  · by_cases hB : X.length + d.length ≤ s.length
    · right
      have hsuf1 : t ++ e <:+ X ++ (d ++ Y) := ⟨s, by simpa [List.append_assoc] using hse⟩
      have hsuf2 : Y <:+ X ++ (d ++ Y) := (List.suffix_append d Y).trans (List.suffix_append X _)
      have hte : t ++ e <:+ Y :=
        List.suffix_of_suffix_length_le hsuf1 hsuf2 (by simp; omega)
      have htte : t <+: t ++ e := List.prefix_append t e
      exact htte.isInfix.trans hte.isInfix
    · exfalso
      push_neg at hA hB
      have htpos : 0 < t.length := List.length_pos.mpr htne
      have hdpos : 0 < d.length := List.length_pos.mpr hdne
      set p := max s.length X.length with hp
      have hp1 : s.length ≤ p := le_max_left _ _
      have hp2 : X.length ≤ p := le_max_right _ _
      have hp3 : p < s.length + t.length := by omega
      have hp4 : p < X.length + d.length := by omega
      have hts : p - s.length < t.length := by omega
      have hdx : p - X.length < d.length := by omega
      have h1 : (X ++ (d ++ Y))[p]? = t[p - s.length]? := by
        rw [← hse, List.append_assoc, List.getElem?_append_right (by omega : s.length ≤ p),
          List.getElem?_append_left hts]
      have h2 : (X ++ (d ++ Y))[p]? = d[p - X.length]? := by
        rw [List.getElem?_append_right hp2, List.getElem?_append_left hdx]
      have h12 : t[p - s.length]? = d[p - X.length]? := h1.symm.trans h2
      rcases hc : t[p - s.length]? with _ | c
      · rw [List.getElem?_eq_getElem hts] at hc
        exact Option.noConfusion hc
      · have hct : c ∈ t := List.getElem?_mem hc
        have hcd : c ∈ d := List.getElem?_mem (by rw [← h12]; exact hc)
        have h3 := ht c hct
        have h4 := hd c hcd
        rw [h4] at h3
        exact Bool.noConfusion h3

theorem not_infix_of_listIn_false {t l : List Char} (h : listIn t l = false) :
    ¬ (t <:+: l) := by
  intro hinf
  rw [(listIn_iff t l).mpr hinf] at h
  exact Bool.noConfusion h

theorem toDigitsCore_digits (f : Nat) :
    ∀ (n : Nat) (ds : List Char), (∀ c ∈ ds, c.isDigit = true) →
      ∀ c ∈ Nat.toDigitsCore 10 f n ds, c.isDigit = true := by
  induction f with
  | zero => intro n ds hds c hc; exact hds c hc
  | succ f ih =>
    intro n ds hds c hc
    rw [Nat.toDigitsCore] at hc
    have hdigit : (Nat.digitChar (n % 10)).isDigit = true := by
      have h10 : n % 10 < 10 := Nat.mod_lt n (by omega)
      interval_cases h : n % 10 <;> rfl
    by_cases hn : n / 10 = 0
    · simp only [hn, if_true] at hc
      rcases List.mem_cons.mp hc with rfl | hc
      · exact hdigit
      · exact hds c hc
    · simp only [hn, if_false] at hc
      exact ih (n / 10) (Nat.digitChar (n % 10) :: ds)
        (fun c' hc' => by
          rcases List.mem_cons.mp hc' with rfl | hc'
          · exact hdigit
          · exact hds c' hc') c hc

theorem repr_digits (n : Nat) : ∀ c ∈ (Nat.repr n).data, c.isDigit = true := by
  intro c hc
  have hdata : (Nat.repr n).data = Nat.toDigits 10 n := by
    simp [Nat.repr, List.asString]
  rw [hdata] at hc
  exact toDigitsCore_digits (n + 1) n [] (by simp) c hc

theorem toDigitsCore_ne_nil (f : Nat) :
    ∀ (n : Nat) (ds : List Char), f ≠ 0 ∨ ds ≠ [] → Nat.toDigitsCore 10 f n ds ≠ [] := by
  induction f with
  | zero =>
    intro n ds h
    rcases h with h | h
    · omega
    · simpa [Nat.toDigitsCore] using h
  | succ f ih =>
    intro n ds _
    rw [Nat.toDigitsCore]
    by_cases hn : n / 10 = 0
    · simp [hn]
    · simp only [hn, if_false]
      exact ih (n / 10) _ (Or.inr (by simp))

theorem repr_ne_nil (n : Nat) : (Nat.repr n).data ≠ [] := by
  have hdata : (Nat.repr n).data = Nat.toDigits 10 n := by
    simp [Nat.repr, List.asString]
  rw [hdata]
  exact toDigitsCore_ne_nil (n + 1) n [] (Or.inl (by omega))

/-- The theme-scoped request URL never mentions `sort` for any digit theme
code: the four non-digit characters of `"sort"` would have to lie inside one
of the fixed URL template segments, and none of them contains it. -/
theorem theme_url_no_sort (code : String) (page n : Nat)
    (hne : code.data ≠ []) (hdig : ∀ c ∈ code.data, c.isDigit = true) :
    ¬ ("sort".data <:+: (request_tunes_by_theme_code_url code page n).data) := by
  intro h
  have hurl : (request_tunes_by_theme_code_url code page n).data =
      ("http://tunearch.org/w/api.php?action=ask&query=[[Category:Tune]]|[[Theme code index::~").data ++
      (code.data ++
        (("*]]|offset=").data ++
          ((toString (page * n)).data ++
            (("|limit=").data ++
              ((toString n).data ++ ("&format=json").data))))) := by
    simp only [request_tunes_by_theme_code_url, String.data_append, List.append_assoc]
    rfl
  rw [hurl] at h
  have hsortnd : ∀ c ∈ ("sort").data, c.isDigit = false := by decide
  have hsortne : ("sort").data ≠ [] := by decide
  rcases infix_append_middle hsortne hne hsortnd hdig h with h | h
  · exact not_infix_of_listIn_false (by decide) h
  rcases infix_append_middle hsortne (repr_ne_nil (page * n)) hsortnd
    (repr_digits (page * n)) h with h | h
  · exact not_infix_of_listIn_false (by decide) h
  rcases infix_append_middle hsortne (repr_ne_nil n) hsortnd (repr_digits n) h with h | h
  · exact not_infix_of_listIn_false (by decide) h
  · exact not_infix_of_listIn_false (by decide) h

/-- C3 counterexample: the claim says both requesters sort by
`Theme_code_index` ascending, but the theme-scoped request URL carries no
sort directive at all — neither `sort` nor `order` nor `Theme_code_index`
occurs anywhere in it. -/
theorem theme_request_no_sort_cex :
    pyIn "sort" (request_tunes_by_theme_code_url "1111" 0 10) = false ∧
    pyIn "order" (request_tunes_by_theme_code_url "1111" 0 10) = false ∧
    pyIn "Theme_code_index" (request_tunes_by_theme_code_url "1111" 0 10) = false :=
  ⟨by decide, by decide, by decide⟩

/-- C3 (amended): both page requesters build their query with
offset = page × page-size and limit = page-size; the *global* requester's
request is sorted by `Theme_code_index` ascending (`sort[0]`/`order[0]`
parameters), while the theme-scoped requester's URL contains no sort
directive at all (shown for the actual theme codes: non-empty strings of
digits). -/
theorem page_request_offset_limit_sort (code : String) (page num_tunes : Nat)
    (hne : code.data ≠ []) (hdig : ∀ c ∈ code.data, c.isDigit = true) :
    (request_tunes_args page num_tunes).lookup "p[offset]" =
      some (toString (page * num_tunes)) ∧
    (request_tunes_args page num_tunes).lookup "p[limit]" = some (toString num_tunes) ∧
    ("sort[0]", "Theme_code_index") ∈ request_tunes_args page num_tunes ∧
    ("order[0]", "ASC") ∈ request_tunes_args page num_tunes ∧
    (∃ pre post, request_tunes_by_theme_code_url code page num_tunes =
      pre ++ ("|offset=" ++ toString (page * num_tunes) ++ "|limit=" ++
        toString num_tunes) ++ post) ∧
    ¬ ("sort".data <:+: (request_tunes_by_theme_code_url code page num_tunes).data) := by
  refine ⟨rfl, rfl, by simp [request_tunes_args], by simp [request_tunes_args], ?_,
    theme_url_no_sort code page num_tunes hne hdig⟩
  refine ⟨"http://tunearch.org/w/api.php?action=ask" ++
    "&query=[[Category:Tune]]|[[Theme code index::~" ++ code ++ "*]]", "&format=json", ?_⟩
  simp only [request_tunes_by_theme_code_url, String.append_assoc]

/-- C3 witness: at code `"1111"`, page 2, page size 10, the offset parameter
is `"20"` and the theme URL has no sort directive. -/
theorem page_request_offset_limit_sort_witness :
    (request_tunes_args 2 10).lookup "p[offset]" = some (toString (2 * 10)) ∧
    ¬ ("sort".data <:+: (request_tunes_by_theme_code_url "1111" 2 10).data) :=
  ⟨(page_request_offset_limit_sort "1111" 2 10 (by decide) (by decide)).1,
   (page_request_offset_limit_sort "1111" 2 10 (by decide) (by decide)).2.2.2.2.2⟩
